import Mathlib

/-!
Shallow embedding of `thonny/custom_notebook.py` (class `CustomNotebook`
with its helper classes `CustomNotebookTab` and `CustomNotebookPage`).

Widgets (tk content panes) are modelled by an identity `id` plus the
rendering-engine name returned by `winfo_name()`.  Tab headers are modelled
by an identity `id` plus the mutable `title`.  Object identity of the
Python objects is modelled by structural equality on these records; fresh
tabs receive a serial identity from the notebook's `nextId` counter, so
tabs created by the notebook are pairwise distinct.

Side effects on the rendering/event services (grid, tkraise,
update_state, event_generate, grid_forget) are recorded in an append-only
`effects` log, so that claims about visual changes and about the
`<<NotebookTabChanged>>` notification can be stated.

Fallible operations return `Except NbError`; the source raises before any
mutation in every failure path, which the embedding mirrors by returning
`.error` without a state, and `applyOp` keeps the pre-state on error.
-/

namespace CustomNotebook

/-- A tk widget used as page content: identity plus `winfo_name()`. -/
structure Widget where
  id : Nat
  name : String
deriving DecidableEq, Repr

/-- A `CustomNotebookTab`: identity plus its mutable title. -/
structure Tab where
  id : Nat
  title : String
deriving DecidableEq, Repr

/-- A `CustomNotebookPage`: a tab header paired with a content widget. -/
structure Page where
  tab : Tab
  content : Widget
deriving DecidableEq, Repr

/-- One recorded call into the rendering/event services. -/
inductive Effect where
  | gridContent (contentId : Nat)
  | raiseContent (contentId : Nat)
  | tabState (tabId : Nat) (active : Bool)
  | tabChanged
  | contentGridForget (contentId : Nat)
  | tabGridForget (tabId : Nat)
  | rearrange (tabIds : List Nat)
  | setTitle (tabId : Nat) (text : String)
deriving DecidableEq, Repr

/-- The error kinds the source raises: `IndexError` from list indexing,
`RuntimeError("Can't find ...")` from `index`, and
`ValueError("Can't find ..." / "Unknown tab ...")` from
`forget`/`close_tab`/`select_tab`. -/
inductive NbError where
  | indexError
  | runtimeNotFound
  | valueNotFound
deriving DecidableEq, Repr

/-- The spec's error taxonomy groups the two lookup failures as the
`NotFound` kind, as opposed to `IndexError`. -/
def NbError.isNotFound : NbError → Bool
  | .indexError => false
  | .runtimeNotFound => true
  | .valueNotFound => true

/-- `tab_id: Union[str, tk.Widget]` argument of `index`/`select`/`tab`. -/
inductive TabId where
  | str (s : String)
  | widget (w : Widget)
deriving DecidableEq, Repr

/-- `pos: Union[int, Literal["end"]]` argument of `insert`. -/
inductive InsertPos where
  | atEnd
  | atIndex (i : Int)
deriving DecidableEq, Repr

/-- State of a `CustomNotebook`: the page sequence, the current page, the
serial counter providing identity for freshly created tabs, and the log
of rendering/event effects. -/
structure Notebook where
  closable : Bool
  nextId : Nat
  pages : List Page
  current_page : Option Page
  effects : List Effect
deriving DecidableEq, Repr

/-- A freshly constructed notebook: no pages, no current page. -/
def emptyNotebook (closable : Bool) : Notebook :=
  { closable := closable, nextId := 0, pages := [], current_page := none, effects := [] }

/-- Python list read `l[i]`: non-negative indices from the front,
negative indices from the back, `none` (IndexError) outside
`[-len l, len l)`. -/
def pyGet? {α : Type} (l : List α) (i : Int) : Option α :=
  let j : Int := if i < 0 then i + l.length else i
  if 0 ≤ j ∧ j < l.length then l[j.toNat]? else none

/-- Effective position of Python `l.insert(i, x)`: negative positions
count from the back clamped at 0, positions past the end append. -/
def pyInsertIdx (len : Nat) (i : Int) : Nat :=
  if i < 0 then (i + len).toNat else min i.toNat len

/-- Python `l.insert(i, x)`. -/
def pyInsert {α : Type} (l : List α) (i : Int) (x : α) : List α :=
  let j := pyInsertIdx l.length i
  l.take j ++ x :: l.drop j

/-- The index at which `insert` actually places the new page: the length
for the `"end"` sentinel, else the clamped Python insert position. -/
def insertEff (len : Nat) : InsertPos → Nat
  | .atEnd => len
  | .atIndex i => pyInsertIdx len i

/-- The `for i, page in enumerate(self.pages)` search loops: first index
and element satisfying the predicate. -/
def findFirst (p : Page → Bool) : List Page → Option (Nat × Page)
  | [] => none
  | q :: rest =>
    if p q then some (0, q)
    else (findFirst p rest).map (fun ip => (ip.1 + 1, ip.2))

/-- The match used by `index`:
`page.content == tab_id or page.content.winfo_name() == tab_id`.
Comparing a widget with a string is `False` in Python, so exactly one
disjunct can fire per argument shape. -/
def pageMatchesTabId (page : Page) (tab_id : TabId) : Bool :=
  match tab_id with
  | .widget w => page.content = w
  | .str s => page.content.name = s

/-- `CustomNotebook._rearrange_tabs`: re-grids every tab header at its
column; pure re-layout, recorded as one effect. -/
def rearrange_tabs (nb : Notebook) : Notebook :=
  { nb with effects := nb.effects ++ [.rearrange (nb.pages.map (fun p => p.tab.id))] }

/-- `CustomNotebook.index`. -/
def index (nb : Notebook) (tab_id : TabId) : Except NbError Nat :=
  if tab_id = .str "end" then .ok nb.pages.length
  else
    match findFirst (fun page => pageMatchesTabId page tab_id) nb.pages with
    | some ip => .ok ip.1
    | none => .error .runtimeNotFound

/-- `CustomNotebook.select_by_index`. -/
def select_by_index (nb : Notebook) (i : Int) : Except NbError Notebook :=
  match pyGet? nb.pages i with
  | none => .error .indexError
  | some new_page =>
    if some new_page = nb.current_page then .ok nb
    else
      let effs : List Effect :=
        [.gridContent new_page.content.id, .raiseContent new_page.content.id,
         .tabState new_page.tab.id true] ++
        (match nb.current_page with
         | some cur => [Effect.tabState cur.tab.id false]
         | none => []) ++ [Effect.tabChanged]
      .ok { nb with current_page := some new_page, effects := nb.effects ++ effs }

/-- `CustomNotebook.select_tab`. -/
def select_tab (nb : Notebook) (t : Tab) : Except NbError Notebook :=
  match findFirst (fun page => page.tab = t) nb.pages with
  | some ip => select_by_index nb ip.1
  | none => .error .valueNotFound

/-- `CustomNotebook.select`: with no id, a query returning the current
content's name; with an id, resolve via `index` then `select_by_index`. -/
def select (nb : Notebook) (tab_id : Option TabId) :
    Except NbError (Notebook × Option String) :=
  match tab_id with
  | none =>
    match nb.current_page with
    | some cur => .ok (nb, some cur.content.name)
    | none => .ok (nb, none)
  | some tid =>
    match index nb tid with
    | .error e => .error e
    | .ok i =>
      match select_by_index nb (i : Int) with
      | .error e => .error e
      | .ok nb' => .ok (nb', none)

/-- `CustomNotebook.insert`: create a fresh tab and page, splice the page
in, re-layout, then select the fresh tab. -/
def insert (nb : Notebook) (pos : InsertPos) (child : Widget) (text : String) :
    Except NbError Notebook :=
  let t : Tab := { id := nb.nextId, title := text }
  let page : Page := { tab := t, content := child }
  let pages' :=
    match pos with
    | .atEnd => nb.pages ++ [page]
    | .atIndex i => pyInsert nb.pages i page
  let nb1 := rearrange_tabs { nb with nextId := nb.nextId + 1, pages := pages' }
  select_tab nb1 t

/-- `CustomNotebook.add`. -/
def add (nb : Notebook) (child : Widget) (text : String) : Except NbError Notebook :=
  insert nb .atEnd child text

/-- `CustomNotebook.forget`: locate the page by content identity, detach
its visuals, delete it, then reassign `current_page` to the page now at
the removed index, else the last page, else `None`; finally re-layout. -/
def forget (nb : Notebook) (child : Widget) : Except NbError Notebook :=
  match findFirst (fun page => page.content = child) nb.pages with
  | none => .error .valueNotFound
  | some (i, page) =>
    let nb1 :=
      { nb with effects := nb.effects ++
          [Effect.contentGridForget page.content.id, Effect.tabGridForget page.tab.id] }
    let pages' := nb.pages.eraseIdx i
    let current' :=
      if pages'.length = 0 then none
      else if i < pages'.length then pages'[i]?
      else pages'[pages'.length - 1]?
    .ok (rearrange_tabs { nb1 with pages := pages', current_page := current' })

/-- `CustomNotebook.get_child_by_index`. -/
def get_child_by_index (nb : Notebook) (i : Int) : Except NbError Widget :=
  match pyGet? nb.pages i with
  | some p => .ok p.content
  | none => .error .indexError

/-- `CustomNotebook.get_current_child`. -/
def get_current_child (nb : Notebook) : Option Widget :=
  nb.current_page.map (fun p => p.content)

/-- `CustomNotebook.tab`: rename the tab of the page at the resolved
index.  The Python code mutates the shared tab object, so the copy held
in `current_page` is updated in lockstep. -/
def tab (nb : Notebook) (tab_id : TabId) (text : String) : Except NbError Notebook :=
  match index nb tab_id with
  | .error e => .error e
  | .ok i =>
    match nb.pages[i]? with
    | none => .error .indexError
    | some page =>
      let page' : Page := { page with tab := { page.tab with title := text } }
      .ok { nb with
        pages := nb.pages.set i page',
        current_page := if nb.current_page = some page then some page' else nb.current_page,
        effects := nb.effects ++ [.setTitle page.tab.id text] }

/-- `CustomNotebook.tabs`: the list of content widget names. -/
def tabs (nb : Notebook) : List String :=
  nb.pages.map (fun p => p.content.name)

/-- `CustomNotebook.close_tab`: find the page owning the tab, forget its
content. -/
def close_tab (nb : Notebook) (t : Tab) : Except NbError Notebook :=
  match findFirst (fun page => page.tab = t) nb.pages with
  | some ip => forget nb ip.2.content
  | none => .error .valueNotFound

/-- `for page in reversed(self.pages)` in `close_tabs`: the CPython
reverse list iterator holds a descending index and stops as soon as the
index is out of range of the (mutating) list. -/
def close_tabs_loop (except_tab : Option Tab) : Notebook → Nat → Notebook
  | nb, 0 => nb
  | nb, i + 1 =>
    if h : i < nb.pages.length then
      let page := nb.pages.get ⟨i, h⟩
      if some page.tab = except_tab then close_tabs_loop except_tab nb i
      else
        match close_tab nb page.tab with
        | .ok nb' => close_tabs_loop except_tab nb' i
        | .error _ => nb
    else nb

/-- `CustomNotebook.close_tabs`. -/
def close_tabs (nb : Notebook) (except_tab : Option Tab) : Notebook :=
  close_tabs_loop except_tab nb nb.pages.length

/-- The public operations of claim C1. -/
inductive Op where
  | add (child : Widget) (text : String)
  | insert (pos : InsertPos) (child : Widget) (text : String)
  | forget (child : Widget)
  | select (tab_id : Option TabId)
  | select_by_index (i : Int)
  | select_tab (t : Tab)
  | close_tab (t : Tab)
  | close_tabs (except_tab : Option Tab)

/-- A raised exception aborts the call; every failure path in the source
raises before mutating, so the pre-state is kept. -/
def orOld (nb : Notebook) : Except NbError Notebook → Notebook
  | .ok nb' => nb'
  | .error _ => nb

/-- Apply one public operation to a notebook state. -/
def applyOp (nb : Notebook) : Op → Notebook
  | .add c t => orOld nb (add nb c t)
  | .insert pos c t => orOld nb (insert nb pos c t)
  | .forget c => orOld nb (forget nb c)
  | .select tid =>
    match select nb tid with
    | .ok p => p.1
    | .error _ => nb
  | .select_by_index i => orOld nb (select_by_index nb i)
  | .select_tab t => orOld nb (select_tab nb t)
  | .close_tab t => orOld nb (close_tab nb t)
  | .close_tabs e => close_tabs nb e

/-- Run a sequence of public operations from the freshly constructed
notebook. -/
def run (ops : List Op) : Notebook :=
  ops.foldl applyOp (emptyNotebook true)

/-- The current-page invariant of the spec. -/
def Inv (nb : Notebook) : Prop :=
  (nb.current_page = none ↔ nb.pages = []) ∧
  ∀ p, nb.current_page = some p → p ∈ nb.pages

/-- Well-formedness of the identity counter: every tab id in use is
below `nextId` (true of every reachable state; object identity of a
freshly created `CustomNotebookTab` relies on it). -/
def WF (nb : Notebook) : Prop :=
  (∀ p ∈ nb.pages, p.tab.id < nb.nextId) ∧
  ∀ p, nb.current_page = some p → p.tab.id < nb.nextId

/-! Concrete sample states used by counterexamples and witnesses. -/

def wA : Widget := ⟨0, "a"⟩

def wB : Widget := ⟨1, "b"⟩

def wC : Widget := ⟨2, "c"⟩

def wD : Widget := ⟨3, "d"⟩

/-- The page created for `wA` by the sample runs below. -/
def pageA : Page := ⟨⟨0, "ta"⟩, wA⟩

def pageB : Page := ⟨⟨1, "tb"⟩, wB⟩

def pageC : Page := ⟨⟨2, "tc"⟩, wC⟩

/-- One page added. -/
def nbA : Notebook := run [.add wA "ta"]

/-- Two pages added; current is the `wB` page. -/
def nbAB : Notebook := run [.add wA "ta", .add wB "tb"]

/-- Three pages added; current is the `wC` page. -/
def nbABC : Notebook := run [.add wA "ta", .add wB "tb", .add wC "tc"]

/-- Two pages with the `wA` page re-selected as current. -/
def nbAB_selA : Notebook := run [.add wA "ta", .add wB "tb", .select_by_index 0]

def pageD : Page := ⟨⟨3, "td"⟩, wD⟩

/-- Four pages added; current is the `wD` page. -/
def nbABCD : Notebook := run [.add wA "ta", .add wB "tb", .add wC "tc", .add wD "td"]

theorem findFirst_eq_none_iff (p : Page → Bool) (l : List Page) :
    findFirst p l = none ↔ ∀ q ∈ l, p q = false := by
  induction l with
  | nil => simp [findFirst]
  | cons a rest ih =>
    by_cases hpa : p a
    · simp [findFirst, hpa]
    · simp only [Bool.not_eq_true] at hpa
      simp [findFirst, hpa, ih]

theorem findFirst_some (p : Page → Bool) (l : List Page) (i : Nat) (q : Page)
    (h : findFirst p l = some (i, q)) : l[i]? = some q ∧ p q = true := by
  induction l generalizing i with
  | nil => simp [findFirst] at h
  | cons a rest ih =>
    by_cases hpa : p a
    · simp [findFirst, hpa] at h
      obtain ⟨hi, hq⟩ := h
      subst hi; subst hq
      simpa using hpa
    · simp only [Bool.not_eq_true] at hpa
      simp only [findFirst, hpa, Bool.false_eq_true, if_false] at h
      match hrest : findFirst p rest with
      | none => rw [hrest] at h; simp at h
      | some (j, r) =>
        rw [hrest] at h
        simp only [Option.map_some'] at h
        rw [Option.some.injEq, Prod.mk.injEq] at h
        obtain ⟨hi, hq⟩ := h
        subst hi; subst hq
        obtain ⟨hget, hp⟩ := ih j hrest
        exact ⟨by simpa using hget, hp⟩

theorem pyGet?_eq_some (l : List Page) (i : Int) (x : Page)
    (h : pyGet? l i = some x) : x ∈ l := by
  unfold pyGet? at h
  by_cases h0 : i < 0 <;> simp only [h0, if_true, if_false] at h <;>
    (split at h
     · exact List.getElem?_mem h
     · simp at h)

theorem rearrange_tabs_pages (nb : Notebook) : (rearrange_tabs nb).pages = nb.pages := rfl

theorem rearrange_tabs_current (nb : Notebook) :
    (rearrange_tabs nb).current_page = nb.current_page := rfl

theorem select_by_index_ok (nb : Notebook) (i : Int) (nb' : Notebook)
    (h : select_by_index nb i = .ok nb') :
    ∃ p, pyGet? nb.pages i = some p ∧ nb'.pages = nb.pages ∧ nb'.current_page = some p := by
  unfold select_by_index at h
  split at h
  · exact absurd h (by simp)
  next p hg =>
    split at h
    next hc =>
      simp only [Except.ok.injEq] at h
      subst h
      exact ⟨p, hg, rfl, hc.symm⟩
    next hc =>
      simp only [Except.ok.injEq] at h
      subst h
      exact ⟨p, hg, rfl, rfl⟩

theorem inv_of_select_by_index_ok (nb : Notebook) (i : Int) (nb' : Notebook)
    (h : select_by_index nb i = .ok nb') : Inv nb' := by
  obtain ⟨p, hg, hpages, hcur⟩ := select_by_index_ok nb i nb' h
  have hmem : p ∈ nb.pages := pyGet?_eq_some _ _ _ hg
  refine ⟨⟨?_, ?_⟩, ?_⟩
  · intro hc; rw [hcur] at hc; simp at hc
  · intro hc; rw [hpages] at hc; rw [hc] at hmem; simp at hmem
  · intro q hq
    rw [hcur, Option.some.injEq] at hq
    subst hq
    rw [hpages]
    exact hmem

theorem select_tab_ok (nb : Notebook) (t : Tab) (nb' : Notebook)
    (h : select_tab nb t = .ok nb') : ∃ i : Int, select_by_index nb i = .ok nb' := by
  unfold select_tab at h
  split at h
  next ip hf => exact ⟨ip.1, h⟩
  next => exact absurd h (by simp)

theorem inv_of_insert_ok (nb : Notebook) (pos : InsertPos) (c : Widget) (t : String)
    (nb' : Notebook) (h : insert nb pos c t = .ok nb') : Inv nb' := by
  unfold insert at h
  obtain ⟨i, hi⟩ := select_tab_ok _ _ _ h
  exact inv_of_select_by_index_ok _ _ _ hi

theorem forget_ok_inv (nb : Notebook) (c : Widget) (nb' : Notebook)
    (h : forget nb c = .ok nb') : Inv nb' := by
  unfold forget at h
  split at h
  · exact absurd h (by simp)
  next i page hf =>
    simp only [Except.ok.injEq] at h
    subst h
    refine ⟨⟨?_, ?_⟩, ?_⟩ <;>
      simp only [Inv, rearrange_tabs_pages, rearrange_tabs_current]
    · intro hc
      by_cases h0 : (nb.pages.eraseIdx i).length = 0
      · exact List.length_eq_zero.mp h0
      · exfalso
        rw [if_neg h0] at hc
        by_cases hi : i < (nb.pages.eraseIdx i).length
        · rw [if_pos hi, List.getElem?_eq_getElem hi] at hc; simp at hc
        · rw [if_neg hi] at hc
          have hlt : (nb.pages.eraseIdx i).length - 1 < (nb.pages.eraseIdx i).length :=
            Nat.sub_lt (Nat.pos_of_ne_zero h0) one_pos
          rw [List.getElem?_eq_getElem hlt] at hc; simp at hc
    · intro hc
      have h0 : (nb.pages.eraseIdx i).length = 0 := by rw [hc]; rfl
      rw [if_pos h0]
    · intro q hq
      by_cases h0 : (nb.pages.eraseIdx i).length = 0
      · rw [if_pos h0] at hq; simp at hq
      · rw [if_neg h0] at hq
        by_cases hi : i < (nb.pages.eraseIdx i).length
        · rw [if_pos hi, List.getElem?_eq_getElem hi, Option.some.injEq] at hq
          subst hq
          exact List.getElem_mem hi
        · rw [if_neg hi] at hq
          have hlt : (nb.pages.eraseIdx i).length - 1 < (nb.pages.eraseIdx i).length :=
            Nat.sub_lt (Nat.pos_of_ne_zero h0) one_pos
          rw [List.getElem?_eq_getElem hlt, Option.some.injEq] at hq
          subst hq
          exact List.getElem_mem hlt

theorem select_ok (nb : Notebook) (tid : Option TabId) (p : Notebook × Option String)
    (h : select nb tid = .ok p) :
    p.1 = nb ∨ ∃ i : Int, select_by_index nb i = .ok p.1 := by
  unfold select at h
  split at h
  · split at h <;>
      (simp only [Except.ok.injEq] at h; subst h; exact Or.inl rfl)
  next t =>
    split at h
    · exact absurd h (by simp)
    next i hidx =>
      split at h
      · exact absurd h (by simp)
      next nb2 hsel =>
        simp only [Except.ok.injEq] at h
        subst h
        exact Or.inr ⟨(i : Int), hsel⟩

theorem close_tab_ok (nb : Notebook) (t : Tab) (nb' : Notebook)
    (h : close_tab nb t = .ok nb') : ∃ c, forget nb c = .ok nb' := by
  unfold close_tab at h
  split at h
  next ip hf => exact ⟨ip.2.content, h⟩
  next => exact absurd h (by simp)

theorem close_tabs_loop_inv (e : Option Tab) (n : Nat) :
    ∀ nb, Inv nb → Inv (close_tabs_loop e nb n) := by
  induction n with
  | zero => intro nb h; exact h
  | succ m ih =>
    intro nb h
    unfold close_tabs_loop
    split
    · dsimp only
      split
      · exact ih nb h
      · split
        next nb2 hct =>
          obtain ⟨c, hc⟩ := close_tab_ok _ _ _ hct
          exact ih nb2 (forget_ok_inv _ _ _ hc)
        next => exact h
    · exact h

theorem applyOp_inv (nb : Notebook) (op : Op) (h : Inv nb) : Inv (applyOp nb op) := by
  match op with
  | .add c t =>
    simp only [applyOp, orOld, add]
    split
    next nb' hop => exact inv_of_insert_ok _ _ _ _ _ hop
    next => exact h
  | .insert pos c t =>
    simp only [applyOp, orOld]
    split
    next nb' hop => exact inv_of_insert_ok _ _ _ _ _ hop
    next => exact h
  | .forget c =>
    simp only [applyOp, orOld]
    split
    next nb' hop => exact forget_ok_inv _ _ _ hop
    next => exact h
  | .select tid =>
    simp only [applyOp]
    split
    next p hop =>
      rcases select_ok _ _ _ hop with heq | ⟨i, hi⟩
      · rw [heq]; exact h
      · exact inv_of_select_by_index_ok _ _ _ hi
    next => exact h
  | .select_by_index i =>
    simp only [applyOp, orOld]
    split
    next nb' hop => exact inv_of_select_by_index_ok _ _ _ hop
    next => exact h
  | .select_tab t =>
    simp only [applyOp, orOld]
    split
    next nb' hop =>
      obtain ⟨i, hi⟩ := select_tab_ok _ _ _ hop
      exact inv_of_select_by_index_ok _ _ _ hi
    next => exact h
  | .close_tab t =>
    simp only [applyOp, orOld]
    split
    next nb' hop =>
      obtain ⟨c, hc⟩ := close_tab_ok _ _ _ hop
      exact forget_ok_inv _ _ _ hc
    next => exact h
  | .close_tabs e =>
    simp only [applyOp, close_tabs]
    exact close_tabs_loop_inv e nb.pages.length nb h

theorem foldl_applyOp_inv (ops : List Op) :
    ∀ nb, Inv nb → Inv (ops.foldl applyOp nb) := by
  induction ops with
  | nil => intro nb h; exact h
  | cons op rest ih => intro nb h; exact ih _ (applyOp_inv nb op h)

/-- C1: for every sequence of public operations applied to an initially
empty notebook, after each operation the current page is `None` iff the
page sequence is empty, and otherwise the current page is an element of
the page sequence. -/
theorem C1_current_page_invariant (ops : List Op) :
    ((run ops).current_page = none ↔ (run ops).pages = []) ∧
    ∀ p, (run ops).current_page = some p → p ∈ (run ops).pages := by
  have : Inv (run ops) := by
    unfold run
    refine foldl_applyOp_inv ops (emptyNotebook true) ?_
    exact ⟨by simp [emptyNotebook], by simp [emptyNotebook]⟩
  exact this

theorem eraseIdx_append_cons (l1 l2 : List Page) (a : Page) :
    (l1 ++ a :: l2).eraseIdx l1.length = l1 ++ l2 := by
  induction l1 with
  | nil => rfl
  | cons x rest ih =>
    show x :: ((rest ++ a :: l2).eraseIdx rest.length) = x :: (rest ++ l2)
    rw [ih]

theorem findFirst_append_cons (p : Page → Bool) (l1 l2 : List Page) (a : Page)
    (h1 : ∀ q ∈ l1, p q = false) (ha : p a = true) :
    findFirst p (l1 ++ a :: l2) = some (l1.length, a) := by
  induction l1 with
  | nil => simp [findFirst, ha]
  | cons x rest ih =>
    have hx : p x = false := h1 x (by simp)
    have ihr := ih (fun q hq => h1 q (by simp [hq]))
    simp [findFirst, hx, ihr]

/-- C2 (amended): `forget(P's content)` always re-establishes the current
page by the positional rule — the page now at P's former index (the right
neighbor), else the new last page, else `None` — regardless of whether P
was the current page.  The page sequence loses exactly the located page. -/
theorem C2_forget_tiebreak (nb : Notebook) (l1 l2 : List Page) (P : Page) (c : Widget)
    (hpages : nb.pages = l1 ++ P :: l2) (hc : P.content = c)
    (hnot : ∀ q ∈ l1, q.content ≠ c) :
    ∃ nb', forget nb c = .ok nb' ∧ nb'.pages = l1 ++ l2 ∧
      nb'.current_page = (if l2.isEmpty then l1.getLast? else l2.head?) := by
  have hfind : findFirst (fun page => page.content = c) nb.pages = some (l1.length, P) := by
    rw [hpages]
    refine findFirst_append_cons _ l1 l2 P ?_ (by simp [hc])
    intro q hq
    simpa using hnot q hq
  have herase : nb.pages.eraseIdx l1.length = l1 ++ l2 := by
    rw [hpages]; exact eraseIdx_append_cons l1 l2 P
  unfold forget
  rw [hfind]
  refine ⟨_, rfl, ?_, ?_⟩
  · simp only [rearrange_tabs_pages]
    exact herase
  · simp only [rearrange_tabs_current]
    rw [herase]
    match l2 with
    | x :: rest =>
      have hlen : ¬ (l1 ++ x :: rest).length = 0 := by simp
      rw [if_neg hlen]
      have hlt : l1.length < (l1 ++ x :: rest).length := by simp
      rw [if_pos hlt]
      rw [List.getElem?_append_right (Nat.le_refl _)]
      simp
    | [] =>
      simp only [List.append_nil, List.isEmpty_nil, if_true]
      by_cases h0 : l1.length = 0
      · rw [if_pos h0]
        have : l1 = [] := List.length_eq_zero.mp h0
        simp [this]
      · rw [if_neg h0]
        have hnl : ¬ l1.length < l1.length := Nat.lt_irrefl _
        rw [if_neg hnl]
        exact (List.getLast?_eq_getElem? l1).symm

/-- C2 counterexample: on pages `[A, B, C]` with current page `C`,
`forget(A)` moves the current page to `B`, although `A` was not the
current page — the claim's "current unchanged" clause fails. -/
theorem C2_counterexample :
    nbABC.current_page = some pageC ∧
    (forget nbABC wA).map (fun nb => nb.current_page) = .ok (some pageB) ∧
    pageB ≠ pageC := by
  refine ⟨rfl, rfl, by decide⟩

/-- C2 witness: instantiates the amended tie-break theorem on the
three-page sample: `forget(A)` there yields pages `[B, C]` and current
page `B` (the right neighbor). -/
theorem C2_forget_tiebreak_witness :
    ∃ nb', forget nbABC wA = .ok nb' ∧ nb'.pages = [pageB, pageC] ∧
      nb'.current_page = some pageB := by
  have h := C2_forget_tiebreak nbABC [] [pageB, pageC] pageA wA (by rfl) (by rfl)
    (by intro q hq; simp at hq)
  simpa using h

/-- C4 counterexample: with pages `[A, B]` and current page `A`,
`forget(A)` removes the current page while `B` remains, yet the effects
recorded by the call are only the two detach calls and the re-layout: no
tab-header activation (`update_state`) and no selection-changed
notification (`<<NotebookTabChanged>>`) is emitted. -/
theorem C4_counterexample :
    nbAB_selA.current_page = some pageA ∧
    (forget nbAB_selA wA).map
        (fun nb => (nb.pages, nb.effects.drop nbAB_selA.effects.length)) =
      .ok ([pageB],
        [Effect.contentGridForget 0, Effect.tabGridForget 0, Effect.rearrange [1]]) ∧
    Effect.tabChanged ∉
      [Effect.contentGridForget 0, Effect.tabGridForget 0, Effect.rearrange [1]] ∧
    ∀ b : Bool, Effect.tabState pageB.tab.id b ∉
      [Effect.contentGridForget 0, Effect.tabGridForget 0, Effect.rearrange [1]] := by
  refine ⟨rfl, rfl, by decide, by decide⟩

/-- C4 (amended): when `forget` removes the current page and pages
remain, the switch to the new current page is a plain reassignment of
`current_page`: the call appends only the two detach effects and one
re-layout effect, so no tab header is activated and no selection-changed
notification is emitted. -/
theorem C4_forget_switch_without_notification (nb : Notebook) (c : Widget)
    (nb' : Notebook) (P : Page)
    (hcur : nb.current_page = some P) (hPc : P.content = c)
    (hforget : forget nb c = .ok nb') (hne : nb'.pages ≠ []) :
    (∃ w t r, nb'.effects = nb.effects ++
       [Effect.contentGridForget w, Effect.tabGridForget t, Effect.rearrange r]) ∧
    Effect.tabChanged ∉ nb'.effects.drop nb.effects.length ∧
    ∀ tid b, Effect.tabState tid b ∉ nb'.effects.drop nb.effects.length := by
  unfold forget at hforget
  split at hforget
  · exact absurd hforget (by simp)
  next i page hf =>
    simp only [Except.ok.injEq] at hforget
    subst hforget
    have heff : (rearrange_tabs
        { nb with
          effects := nb.effects ++
            [Effect.contentGridForget page.content.id, Effect.tabGridForget page.tab.id],
          pages := nb.pages.eraseIdx i,
          current_page :=
            if (nb.pages.eraseIdx i).length = 0 then none
            else if i < (nb.pages.eraseIdx i).length then (nb.pages.eraseIdx i)[i]?
            else (nb.pages.eraseIdx i)[(nb.pages.eraseIdx i).length - 1]? }).effects =
        nb.effects ++ [Effect.contentGridForget page.content.id,
          Effect.tabGridForget page.tab.id,
          Effect.rearrange ((nb.pages.eraseIdx i).map (fun p => p.tab.id))] := by
      simp [rearrange_tabs]
    refine ⟨⟨page.content.id, page.tab.id, _, heff⟩, ?_, ?_⟩
    · rw [heff, List.drop_left]
      simp
    · intro tid b
      rw [heff, List.drop_left]
      simp

/-- C4 witness: instantiates the amended theorem on the two-page sample
with current page `A`: after `forget(A)` the notification effect is
absent from the suffix the call appended. -/
theorem C4_forget_switch_without_notification_witness :
    Effect.tabChanged ∉
      (orOld nbAB_selA (forget nbAB_selA wA)).effects.drop nbAB_selA.effects.length := by
  have h := C4_forget_switch_without_notification nbAB_selA wA
    (orOld nbAB_selA (forget nbAB_selA wA)) pageA rfl rfl rfl (by decide)
  exact h.2.1

theorem pyGet?_eq_none_iff {α : Type} (l : List α) (i : Int) :
    pyGet? l i = none ↔ (i < -(l.length : Int) ∨ (l.length : Int) ≤ i) := by
  unfold pyGet?
  by_cases h0 : i < 0
  · simp only [h0, if_true]
    by_cases hc : 0 ≤ i + (l.length : Int) ∧ i + (l.length : Int) < (l.length : Int)
    · rw [if_pos hc]
      have hlt : (i + (l.length : Int)).toNat < l.length := by omega
      rw [List.getElem?_eq_getElem hlt]
      simp only [reduceCtorEq, false_iff]
      omega
    · rw [if_neg hc]
      simp only [true_iff]
      omega
  · simp only [h0, if_false]
    by_cases hc : 0 ≤ i ∧ i < (l.length : Int)
    · rw [if_pos hc]
      have hlt : i.toNat < l.length := by omega
      rw [List.getElem?_eq_getElem hlt]
      simp only [reduceCtorEq, false_iff]
      omega
    · rw [if_neg hc]
      simp only [true_iff]
      omega

theorem select_by_index_error_iff (nb : Notebook) (i : Int) :
    select_by_index nb i = .error .indexError ↔ pyGet? nb.pages i = none := by
  unfold select_by_index
  constructor
  · intro h
    split at h
    · assumption
    · split at h <;> simp at h
  · intro h
    rw [h]

theorem get_child_by_index_error_iff (nb : Notebook) (i : Int) :
    get_child_by_index nb i = .error .indexError ↔ pyGet? nb.pages i = none := by
  unfold get_child_by_index
  constructor
  · intro h
    split at h
    · simp at h
    · assumption
  · intro h
    rw [h]

/-- C5 counterexample: on the two-page sample, the index `-2` lies
outside `[0, len(pages))`, yet `select_by_index(-2)` does not fail — it
selects the first page (Python negative indexing) — and
`get_child_by_index(-1)` likewise succeeds. -/
theorem C5_counterexample :
    nbAB.pages.length = 2 ∧
    ¬ (0 ≤ (-2 : Int) ∧ (-2 : Int) < (2 : Int)) ∧
    (select_by_index nbAB (-2)).map (fun nb => nb.current_page) = .ok (some pageA) ∧
    get_child_by_index nbAB (-1) = .ok wB := by
  refine ⟨rfl, by decide, rfl, rfl⟩

/-- C5 (amended): `select_by_index(i)` and `get_child_by_index(i)` fail
with `IndexError` exactly when `i` is outside `[-len(pages), len(pages))`
(Python list indexing accepts negative indices); on such failure the page
sequence and the current page are unchanged. -/
theorem C5_index_error_bounds (nb : Notebook) (i : Int) :
    (select_by_index nb i = .error .indexError ↔
      (i < -(nb.pages.length : Int) ∨ (nb.pages.length : Int) ≤ i)) ∧
    (get_child_by_index nb i = .error .indexError ↔
      (i < -(nb.pages.length : Int) ∨ (nb.pages.length : Int) ≤ i)) ∧
    (select_by_index nb i = .error .indexError →
      applyOp nb (.select_by_index i) = nb) := by
  refine ⟨?_, ?_, ?_⟩
  · rw [select_by_index_error_iff]
    exact pyGet?_eq_none_iff nb.pages i
  · rw [get_child_by_index_error_iff]
    exact pyGet?_eq_none_iff nb.pages i
  · intro h
    simp only [applyOp, orOld, h]

/-- C5 witness: on the two-page sample, index `5` is out of bounds on
both sides of the amended characterization, and the failed call leaves
the state unchanged. -/
theorem C5_index_error_bounds_witness :
    select_by_index nbAB 5 = .error .indexError ∧
    get_child_by_index nbAB 5 = .error .indexError ∧
    applyOp nbAB (.select_by_index 5) = nbAB := by
  have h := C5_index_error_bounds nbAB 5
  have hout : ((5 : Int) < -(nbAB.pages.length : Int) ∨ (nbAB.pages.length : Int) ≤ 5) := by
    right; decide
  refine ⟨h.1.mpr hout, h.2.1.mpr hout, h.2.2 (h.1.mpr hout)⟩

/-- C6: selecting the page that is already current — by index via
`select_by_index` or by identifier via `select` — is a no-op: the state,
including the effect log, is returned unchanged, so zero visual changes
and zero notifications are performed.  Selecting a different page
succeeds and appends exactly one `<<NotebookTabChanged>>` notification. -/
theorem C6_noop_select_single_notification (nb : Notebook) (i : Int) (p : Page)
    (tid : TabId) (j : Nat) (q : Page)
    (hget : pyGet? nb.pages i = some p)
    (hidx : index nb tid = .ok j) (hq : pyGet? nb.pages (j : Int) = some q) :
    (some p = nb.current_page → select_by_index nb i = .ok nb) ∧
    (some q = nb.current_page → select nb (some tid) = .ok (nb, none)) ∧
    (some p ≠ nb.current_page →
      ∃ nb', select_by_index nb i = .ok nb' ∧ nb'.pages = nb.pages ∧
        nb'.effects.count Effect.tabChanged = nb.effects.count Effect.tabChanged + 1) := by
  have hnoop : ∀ (k : Int) (r : Page), pyGet? nb.pages k = some r →
      some r = nb.current_page → select_by_index nb k = .ok nb := by
    intro k r hk hr
    unfold select_by_index
    rw [hk]
    dsimp only
    rw [if_pos hr]
  refine ⟨hnoop i p hget, ?_, ?_⟩
  · intro hqcur
    have hsel : select_by_index nb (j : Int) = .ok nb := hnoop _ q hq hqcur
    unfold select
    dsimp only
    rw [hidx]
    dsimp only
    rw [hsel]
  · intro hne
    unfold select_by_index
    rw [hget]
    dsimp only
    rw [if_neg hne]
    refine ⟨_, rfl, rfl, ?_⟩
    cases hcur : nb.current_page with
    | none => simp [hcur, List.count_append, List.count_cons]
    | some cur => simp [hcur, List.count_append, List.count_cons]

/-- C6 witness: on the two-page sample with current page `B`, selecting
index `1` (the current page) returns the state unchanged, selecting `B`
by identifier likewise, and selecting index `0` (a different page)
appends exactly one notification. -/
theorem C6_noop_select_single_notification_witness :
    select_by_index nbAB 1 = .ok nbAB ∧
    select nbAB (some (.widget wB)) = .ok (nbAB, none) ∧
    ∃ nb', select_by_index nbAB 0 = .ok nb' ∧
      nb'.effects.count Effect.tabChanged = nbAB.effects.count Effect.tabChanged + 1 := by
  have h1 := C6_noop_select_single_notification nbAB 1 pageB (.widget wB) 1 pageB
    rfl rfl rfl
  have h2 := C6_noop_select_single_notification nbAB 0 pageA (.widget wB) 1 pageB
    rfl rfl rfl
  refine ⟨h1.1 rfl, h1.2.1 rfl, ?_⟩
  obtain ⟨nb', hsel, hpg, hcnt⟩ := h2.2.2 (by decide)
  exact ⟨nb', hsel, hcnt⟩

theorem pyGet?_natCast {α : Type} (l : List α) (n : Nat) (h : n < l.length) :
    pyGet? l (n : Int) = l[n]? := by
  unfold pyGet?
  dsimp only
  have h0 : ¬ ((n : Int) < 0) := by omega
  rw [if_neg h0]
  have hc : 0 ≤ (n : Int) ∧ (n : Int) < (l.length : Int) := by omega
  rw [if_pos hc]
  rfl

theorem insertEff_le (len : Nat) (pos : InsertPos) : insertEff len pos ≤ len := by
  match pos with
  | .atEnd => exact Nat.le_refl _
  | .atIndex i =>
    simp only [insertEff, pyInsertIdx]
    by_cases h0 : i < 0
    · rw [if_pos h0]; omega
    · rw [if_neg h0]; omega

theorem select_by_index_switch (nb : Notebook) (i : Int) (p : Page)
    (hget : pyGet? nb.pages i = some p) (hne : ¬ some p = nb.current_page) :
    ∃ nb', select_by_index nb i = .ok nb' ∧ nb'.pages = nb.pages ∧
      nb'.current_page = some p := by
  unfold select_by_index
  rw [hget]
  dsimp only
  rw [if_neg hne]
  exact ⟨_, rfl, rfl, rfl⟩

theorem select_tab_spliced (m : Notebook) (l1 l2 : List Page) (P : Page)
    (hpages : m.pages = l1 ++ P :: l2)
    (hfresh : ∀ q ∈ l1, q.tab ≠ P.tab)
    (hnc : ¬ (some P = m.current_page)) :
    ∃ nb', select_tab m P.tab = .ok nb' ∧ nb'.pages = m.pages ∧
      nb'.current_page = some P := by
  have hfind : findFirst (fun page => page.tab = P.tab) m.pages = some (l1.length, P) := by
    rw [hpages]
    exact findFirst_append_cons _ _ _ _
      (by intro q hq; simpa using hfresh q hq) (by simp)
  have hget : pyGet? m.pages ((l1.length : Nat) : Int) = some P := by
    rw [pyGet?_natCast]
    · rw [hpages, List.getElem?_append_right (Nat.le_refl _)]
      simp
    · rw [hpages]
      simp
  obtain ⟨nb', h1, h2, h3⟩ := select_by_index_switch m (l1.length : Int) P hget hnc
  refine ⟨nb', ?_, h2, h3⟩
  unfold select_tab
  rw [hfind]
  exact h1

/-- Shared specification of `insert`: it always succeeds, splices the
fresh page at the effective position, and makes it the current page. -/
theorem insert_spec (nb : Notebook) (pos : InsertPos) (c : Widget) (t : String)
    (hWF : WF nb) :
    ∃ nb', insert nb pos c t = .ok nb' ∧
      nb'.pages = nb.pages.take (insertEff nb.pages.length pos) ++
        (⟨⟨nb.nextId, t⟩, c⟩ : Page) :: nb.pages.drop (insertEff nb.pages.length pos) ∧
      nb'.current_page = some (⟨⟨nb.nextId, t⟩, c⟩ : Page) := by
  have hfresh : ∀ q ∈ nb.pages, q.tab ≠ (⟨nb.nextId, t⟩ : Tab) := by
    intro q hq hcontra
    have hlt := hWF.1 q hq
    rw [hcontra] at hlt
    exact Nat.lt_irrefl _ hlt
  have hnc : ∀ (m : Notebook), m.current_page = nb.current_page →
      ¬ (some (⟨⟨nb.nextId, t⟩, c⟩ : Page) = m.current_page) := by
    intro m hm hcontra
    rw [hm] at hcontra
    have := hWF.2 _ hcontra.symm
    exact Nat.lt_irrefl _ this
  match pos with
  | .atEnd =>
    obtain ⟨nb', h1, h2, h3⟩ := select_tab_spliced
      (rearrange_tabs
        { nb with
          nextId := nb.nextId + 1
          pages := nb.pages ++ [(⟨⟨nb.nextId, t⟩, c⟩ : Page)] })
      nb.pages [] (⟨⟨nb.nextId, t⟩, c⟩ : Page)
      rfl
      (fun q hq => hfresh q hq)
      (hnc _ rfl)
    refine ⟨nb', h1, ?_, h3⟩
    rw [h2, rearrange_tabs_pages]
    simp [insertEff]
  | .atIndex i =>
    obtain ⟨nb', h1, h2, h3⟩ := select_tab_spliced
      (rearrange_tabs
        { nb with
          nextId := nb.nextId + 1
          pages := nb.pages.take (pyInsertIdx nb.pages.length i) ++
            (⟨⟨nb.nextId, t⟩, c⟩ : Page) :: nb.pages.drop (pyInsertIdx nb.pages.length i) })
      (nb.pages.take (pyInsertIdx nb.pages.length i))
      (nb.pages.drop (pyInsertIdx nb.pages.length i))
      (⟨⟨nb.nextId, t⟩, c⟩ : Page)
      rfl
      (fun q hq => hfresh q (List.mem_of_mem_take hq))
      (hnc _ rfl)
    exact ⟨nb', h1, h2, h3⟩

theorem nbAB_WF : WF nbAB := by
  constructor
  · intro p hp
    have : p = pageA ∨ p = pageB := by
      have hpl : nbAB.pages = [pageA, pageB] := rfl
      rw [hpl] at hp
      simpa using hp
    rcases this with h | h <;> subst h <;> decide
  · intro p hp
    have hc : nbAB.current_page = some pageB := rfl
    rw [hc, Option.some.injEq] at hp
    subst hp
    decide

/-- C8: after every `insert(pos, content, title)` or `add(content, title)`
on a well-formed notebook state, the newly inserted page is the current
page: `get_current_child()` returns the just-inserted content handle. -/
theorem C8_selection_on_insert (nb : Notebook) (pos : InsertPos) (c : Widget) (t : String)
    (hWF : WF nb) :
    (∃ nb', insert nb pos c t = .ok nb' ∧ get_current_child nb' = some c) ∧
    (∃ nb', add nb c t = .ok nb' ∧ get_current_child nb' = some c) := by
  constructor
  · obtain ⟨nb', h1, h2, h3⟩ := insert_spec nb pos c t hWF
    exact ⟨nb', h1, by simp [get_current_child, h3]⟩
  · obtain ⟨nb', h1, h2, h3⟩ := insert_spec nb .atEnd c t hWF
    exact ⟨nb', h1, by simp [get_current_child, h3]⟩

/-- C8 witness: inserting `wC` into the two-page sample, at position 1
and by `add`, makes it the current child. -/
theorem C8_selection_on_insert_witness :
    (∃ nb', insert nbAB (.atIndex 1) wC "tc" = .ok nb' ∧ get_current_child nb' = some wC) ∧
    (∃ nb', add nbAB wC "tc" = .ok nb' ∧ get_current_child nb' = some wC) :=
  C8_selection_on_insert nbAB (.atIndex 1) wC "tc" nbAB_WF

/-- C10 counterexample: `insert(-1, C)` on pages `[A, B]` does not raise
and does not insert at the front: the new page ends up at index 1
(Python `list.insert` counts negative positions from the end), so the
claim's "a position below the start inserts at the front" fails at
position `-1`. -/
theorem C10_counterexample :
    ((-1 : Int) < 0) ∧
    (insert nbAB (.atIndex (-1)) wC "tc").map (fun nb => nb.pages.map (fun p => p.content)) =
      .ok [wA, wC, wB] ∧
    [wA, wC, wB] ≠ wC :: [wA, wB] := by
  exact ⟨by decide, rfl, by decide⟩

/-- C10 (amended): `insert(p, content, title)` never raises for any
integer position: the position is clamped by Python `list.insert`
semantics — a position at or beyond the end appends, a negative position
counts from the end and is clamped at the front (so `p ≤ -len` inserts at
the front) — and the new page is always a member of the sequence and
becomes current. -/
theorem C10_insert_total_clamped (nb : Notebook) (i : Int) (c : Widget) (t : String)
    (hWF : WF nb) :
    ∃ nb', insert nb (.atIndex i) c t = .ok nb' ∧
      (∃ pg ∈ nb'.pages, pg.content = c) ∧
      get_current_child nb' = some c ∧
      nb'.pages.map (fun p => p.content) =
        (nb.pages.map (fun p => p.content)).take (pyInsertIdx nb.pages.length i) ++
          c :: (nb.pages.map (fun p => p.content)).drop (pyInsertIdx nb.pages.length i) ∧
      ((nb.pages.length : Int) ≤ i →
        nb'.pages.map (fun p => p.content) = nb.pages.map (fun p => p.content) ++ [c]) ∧
      (i + (nb.pages.length : Int) ≤ 0 →
        nb'.pages.map (fun p => p.content) = c :: nb.pages.map (fun p => p.content)) := by
  obtain ⟨nb', h1, h2, h3⟩ := insert_spec nb (.atIndex i) c t hWF
  have hmap : nb'.pages.map (fun p => p.content) =
      (nb.pages.map (fun p => p.content)).take (pyInsertIdx nb.pages.length i) ++
        c :: (nb.pages.map (fun p => p.content)).drop (pyInsertIdx nb.pages.length i) := by
    rw [h2]
    simp [insertEff, List.map_take, List.map_drop]
  refine ⟨nb', h1, ?_, by simp [get_current_child, h3], hmap, ?_, ?_⟩
  · refine ⟨(⟨⟨nb.nextId, t⟩, c⟩ : Page), ?_, rfl⟩
    rw [h2]
    simp
  · intro hge
    have hj : pyInsertIdx nb.pages.length i = nb.pages.length := by
      simp only [pyInsertIdx]
      split <;> omega
    rw [hmap, hj]
    rw [List.take_of_length_le (by simp), List.drop_of_length_le (by simp)]
  · intro hle
    have hj : pyInsertIdx nb.pages.length i = 0 := by
      simp only [pyInsertIdx]
      split <;> omega
    rw [hmap, hj]
    simp

/-- C10 witness: inserting at position `-1` on the two-page sample
succeeds, places the new content at index 1 (between the two existing
pages), and makes it current. -/
theorem C10_insert_total_clamped_witness :
    ∃ nb', insert nbAB (.atIndex (-1)) wC "tc" = .ok nb' ∧
      (∃ pg ∈ nb'.pages, pg.content = wC) ∧
      get_current_child nb' = some wC ∧
      nb'.pages.map (fun p => p.content) =
        (nbAB.pages.map (fun p => p.content)).take (pyInsertIdx nbAB.pages.length (-1)) ++
          wC :: (nbAB.pages.map (fun p => p.content)).drop (pyInsertIdx nbAB.pages.length (-1)) ∧
      ((nbAB.pages.length : Int) ≤ -1 →
        nb'.pages.map (fun p => p.content) = nbAB.pages.map (fun p => p.content) ++ [wC]) ∧
      ((-1 : Int) + (nbAB.pages.length : Int) ≤ 0 →
        nb'.pages.map (fun p => p.content) = wC :: nbAB.pages.map (fun p => p.content)) :=
  C10_insert_total_clamped nbAB (-1) wC "tc" nbAB_WF

/-- C9: `index`, `forget` and `close_tab` applied to an identifier,
content handle, or tab that matches no existing page fail with the
NotFound error kind (`RuntimeError`/`ValueError` in the source), the
failure is surfaced as the call's result, and the state — page sequence
and current page included — is unchanged by the failed call. -/
theorem C9_notfound_surfaced_state_unchanged (nb : Notebook) (tid : TabId)
    (cw : Widget) (tt : Tab)
    (hnotid : tid ≠ .str "end")
    (hnomatch : ∀ pg ∈ nb.pages, pageMatchesTabId pg tid = false)
    (hnocontent : ∀ pg ∈ nb.pages, pg.content ≠ cw)
    (hnotab : ∀ pg ∈ nb.pages, pg.tab ≠ tt) :
    (index nb tid = .error .runtimeNotFound ∧ NbError.runtimeNotFound.isNotFound = true) ∧
    (forget nb cw = .error .valueNotFound ∧ applyOp nb (.forget cw) = nb) ∧
    (close_tab nb tt = .error .valueNotFound ∧ NbError.valueNotFound.isNotFound = true ∧
      applyOp nb (.close_tab tt) = nb) := by
  have hidx : index nb tid = .error .runtimeNotFound := by
    unfold index
    rw [if_neg hnotid]
    rw [(findFirst_eq_none_iff _ _).mpr hnomatch]
  have hforget : forget nb cw = .error .valueNotFound := by
    unfold forget
    rw [(findFirst_eq_none_iff _ _).mpr (by intro q hq; simpa using hnocontent q hq)]
  have hclose : close_tab nb tt = .error .valueNotFound := by
    unfold close_tab
    rw [(findFirst_eq_none_iff _ _).mpr (by intro q hq; simpa using hnotab q hq)]
  refine ⟨⟨hidx, rfl⟩, ⟨hforget, ?_⟩, hclose, rfl, ?_⟩
  · simp [applyOp, orOld, hforget]
  · simp [applyOp, orOld, hclose]

/-- C9 witness: on the two-page sample, the unknown name `"zzz"`, the
never-added widget `wC`, and a tab that belongs to no page all fail with
the NotFound kind and leave the notebook unchanged. -/
theorem C9_notfound_surfaced_state_unchanged_witness :
    (index nbAB (.str "zzz") = .error .runtimeNotFound ∧
      NbError.runtimeNotFound.isNotFound = true) ∧
    (forget nbAB wC = .error .valueNotFound ∧ applyOp nbAB (.forget wC) = nbAB) ∧
    (close_tab nbAB ⟨9, "zz"⟩ = .error .valueNotFound ∧
      NbError.valueNotFound.isNotFound = true ∧
      applyOp nbAB (.close_tab ⟨9, "zz"⟩) = nbAB) :=
  C9_notfound_surfaced_state_unchanged nbAB (.str "zzz") wC ⟨9, "zz"⟩
    (by decide) (by decide) (by decide) (by decide)

/-- C3 counterexample: after `add(x, "t")` and the rename
`tab(x, "t2")`, the list returned by `tabs()` is still the content
identifier list `["a"]` — it does not contain the new title `"t2"`,
because `tabs()` returns `winfo_name()` of each content, not titles. -/
theorem C3_counterexample :
    (tab nbA (.widget wA) "t2").map (fun nb => tabs nb) = .ok ["a"] ∧
    "t2" ∉ ["a"] ∧
    (tab nbA (.widget wA) "t2").map (fun nb => nb.pages.map (fun p => p.tab.title)) =
      .ok ["t2"] := by
  refine ⟨rfl, by decide, rfl⟩

/-- C3 (amended): `tab(id, t2)` renames the tab header's title of the
resolved page — the resolved entry's title becomes `"t2"` and every other
entry is untouched — while `tabs()` returns the ordered content
identifiers, which are unchanged by the rename. -/
theorem C3_tab_renames_title (nb : Notebook) (tab_id : TabId) (text : String)
    (i : Nat) (page : Page)
    (hidx : index nb tab_id = .ok i) (hget : nb.pages[i]? = some page) :
    ∃ nb', tab nb tab_id text = .ok nb' ∧
      nb'.pages[i]? = some (⟨⟨page.tab.id, text⟩, page.content⟩ : Page) ∧
      (∀ j, j ≠ i → nb'.pages[j]? = nb.pages[j]?) ∧
      tabs nb' = tabs nb := by
  have hlt : i < nb.pages.length := (List.getElem?_eq_some.mp hget).1
  unfold tab
  rw [hidx]
  dsimp only
  rw [hget]
  dsimp only
  refine ⟨_, rfl, ?_, ?_, ?_⟩
  · rw [List.getElem?_set_self hlt]
  · intro j hj
    exact List.getElem?_set_ne (Ne.symm hj)
  · show (nb.pages.set i _).map (fun p => p.content.name) = nb.pages.map (fun p => p.content.name)
    rw [List.map_set]
    apply List.ext_getElem?
    intro j
    by_cases hj : j = i
    · subst hj
      have hmlt : j < (nb.pages.map (fun p => p.content.name)).length := by
        rw [List.length_map]; exact hlt
      rw [List.getElem?_set_self hmlt, List.getElem?_eq_getElem hmlt]
      have : nb.pages[j] = page := by
        have := List.getElem?_eq_getElem hlt
        rw [hget] at this
        exact (Option.some.injEq _ _ ▸ this.symm : _)
      simp [this]
    · rw [List.getElem?_set_ne (Ne.symm hj)]

/-- C3 witness: renaming the single page of the one-page sample to
`"t2"` updates that entry's title and leaves `tabs()` at `["a"]`. -/
theorem C3_tab_renames_title_witness :
    ∃ nb', tab nbA (.widget wA) "t2" = .ok nb' ∧
      nb'.pages[0]? = some (⟨⟨pageA.tab.id, "t2"⟩, pageA.content⟩ : Page) ∧
      (∀ j, j ≠ 0 → nb'.pages[j]? = nbA.pages[j]?) ∧
      tabs nb' = tabs nbA :=
  C3_tab_renames_title nbA (.widget wA) "t2" 0 pageA rfl rfl

theorem close_tabs_loop_step (e : Option Tab) (nb : Notebook) (i : Nat)
    (h : i < nb.pages.length) :
    close_tabs_loop e nb (i + 1) =
      (if some (nb.pages.get ⟨i, h⟩).tab = e then close_tabs_loop e nb i
       else
         match close_tab nb (nb.pages.get ⟨i, h⟩).tab with
         | .ok nb' => close_tabs_loop e nb' i
         | .error _ => nb) := by
  rw [close_tabs_loop.eq_def]
  dsimp only
  rw [dif_pos h]

theorem forget_spliced (m : Notebook) (l1 l2 : List Page) (P : Page)
    (hpages : m.pages = l1 ++ P :: l2)
    (hnot : ∀ q ∈ l1, q.content ≠ P.content) :
    forget m P.content = .ok (rearrange_tabs
      { m with
        effects := m.effects ++
          [Effect.contentGridForget P.content.id, Effect.tabGridForget P.tab.id]
        pages := l1 ++ l2
        current_page := if l2.isEmpty then l1.getLast? else l2.head? }) := by
  have hfind : findFirst (fun page => page.content = P.content) m.pages =
      some (l1.length, P) := by
    rw [hpages]
    exact findFirst_append_cons _ _ _ _ (by intro q hq; simpa using hnot q hq) (by simp)
  have herase : m.pages.eraseIdx l1.length = l1 ++ l2 := by
    rw [hpages]; exact eraseIdx_append_cons l1 l2 P
  have hcur : (if (l1 ++ l2).length = 0 then none
      else if l1.length < (l1 ++ l2).length
        then (l1 ++ l2)[l1.length]?
        else (l1 ++ l2)[(l1 ++ l2).length - 1]?) =
      (if l2.isEmpty then l1.getLast? else l2.head?) := by
    match l2 with
    | x :: rest =>
      have hlen : ¬ (l1 ++ x :: rest).length = 0 := by simp
      rw [if_neg hlen]
      have hlt : l1.length < (l1 ++ x :: rest).length := by simp
      rw [if_pos hlt]
      rw [List.getElem?_append_right (Nat.le_refl _)]
      simp
    | [] =>
      simp only [List.append_nil, List.isEmpty_nil, if_true]
      by_cases h0 : l1.length = 0
      · rw [if_pos h0]
        have : l1 = [] := List.length_eq_zero.mp h0
        simp [this]
      · rw [if_neg h0]
        have hnl : ¬ l1.length < l1.length := Nat.lt_irrefl _
        rw [if_neg hnl]
        exact (List.getLast?_eq_getElem? l1).symm
  unfold forget
  rw [hfind]
  dsimp only
  rw [herase, hcur]

theorem close_tab_spliced (m : Notebook) (l1 l2 : List Page) (P : Page)
    (hpages : m.pages = l1 ++ P :: l2)
    (htabs : ∀ q ∈ l1, q.tab ≠ P.tab)
    (hnot : ∀ q ∈ l1, q.content ≠ P.content) :
    close_tab m P.tab = .ok (rearrange_tabs
      { m with
        effects := m.effects ++
          [Effect.contentGridForget P.content.id, Effect.tabGridForget P.tab.id]
        pages := l1 ++ l2
        current_page := if l2.isEmpty then l1.getLast? else l2.head? }) := by
  have hfind : findFirst (fun page => page.tab = P.tab) m.pages = some (l1.length, P) := by
    rw [hpages]
    exact findFirst_append_cons _ _ _ _ (by intro q hq; simpa using htabs q hq) (by simp)
  unfold close_tab
  rw [hfind]
  dsimp only
  exact forget_spliced m l1 l2 P hpages hnot

theorem close_tabs_loop_step' (e : Option Tab) (nb : Notebook) (i : Nat) (P : Page)
    (h : i < nb.pages.length) (hP : nb.pages.get ⟨i, h⟩ = P) :
    close_tabs_loop e nb (i + 1) =
      (if some P.tab = e then close_tabs_loop e nb i
       else
         match close_tab nb P.tab with
         | .ok nb' => close_tabs_loop e nb' i
         | .error _ => nb) := by
  subst hP
  exact close_tabs_loop_step e nb i h

/-- C7: on any notebook whose page sequence is `[A, B, C, D]` (pages
pairwise distinct in tab and content identity), "close others" invoked
from `B` forgets `D`, then `C`, then `A` — reverse display order, visible
in the recorded detach effects — and ends with sequence `[B]`;
"close all" forgets `D`, `C`, `B`, `A` and ends with the empty
sequence. -/
theorem C7_close_others_and_close_all (nb : Notebook) (pA pB pC pD : Page)
    (hpages : nb.pages = [pA, pB, pC, pD])
    (hAB : pA.tab ≠ pB.tab) (hAC : pA.tab ≠ pC.tab) (hAD : pA.tab ≠ pD.tab)
    (hBC : pB.tab ≠ pC.tab) (hBD : pB.tab ≠ pD.tab) (hCD : pC.tab ≠ pD.tab)
    (cAB : pA.content ≠ pB.content) (cAC : pA.content ≠ pC.content)
    (cAD : pA.content ≠ pD.content) (cBC : pB.content ≠ pC.content)
    (cBD : pB.content ≠ pD.content) (cCD : pC.content ≠ pD.content) :
    (close_tabs nb (some pB.tab)).pages = [pB] ∧
    (close_tabs nb (some pB.tab)).effects = nb.effects ++
      [Effect.contentGridForget pD.content.id, Effect.tabGridForget pD.tab.id,
       Effect.rearrange [pA.tab.id, pB.tab.id, pC.tab.id],
       Effect.contentGridForget pC.content.id, Effect.tabGridForget pC.tab.id,
       Effect.rearrange [pA.tab.id, pB.tab.id],
       Effect.contentGridForget pA.content.id, Effect.tabGridForget pA.tab.id,
       Effect.rearrange [pB.tab.id]] ∧
    (close_tabs nb none).pages = [] ∧
    (close_tabs nb none).effects = nb.effects ++
      [Effect.contentGridForget pD.content.id, Effect.tabGridForget pD.tab.id,
       Effect.rearrange [pA.tab.id, pB.tab.id, pC.tab.id],
       Effect.contentGridForget pC.content.id, Effect.tabGridForget pC.tab.id,
       Effect.rearrange [pA.tab.id, pB.tab.id],
       Effect.contentGridForget pB.content.id, Effect.tabGridForget pB.tab.id,
       Effect.rearrange [pA.tab.id],
       Effect.contentGridForget pA.content.id, Effect.tabGridForget pA.tab.id,
       Effect.rearrange []] := by
  obtain ⟨cl, nid, pg, cur, eff⟩ := nb
  dsimp only at hpages
  subst hpages
  have hD : close_tab (Notebook.mk cl nid [pA, pB, pC, pD] cur eff) pD.tab =
      .ok (Notebook.mk cl nid [pA, pB, pC] (some pC)
        (eff ++ [Effect.contentGridForget pD.content.id, Effect.tabGridForget pD.tab.id,
          Effect.rearrange [pA.tab.id, pB.tab.id, pC.tab.id]])) := by
    rw [close_tab_spliced (Notebook.mk cl nid [pA, pB, pC, pD] cur eff) [pA, pB, pC] [] pD rfl
      (by intro q hq; simp at hq; rcases hq with h | h | h <;> subst h <;> assumption)
      (by intro q hq; simp at hq; rcases hq with h | h | h <;> subst h <;> assumption)]
    simp [rearrange_tabs]
  have hC : close_tab (Notebook.mk cl nid [pA, pB, pC] (some pC)
      (eff ++ [Effect.contentGridForget pD.content.id, Effect.tabGridForget pD.tab.id,
        Effect.rearrange [pA.tab.id, pB.tab.id, pC.tab.id]])) pC.tab =
      .ok (Notebook.mk cl nid [pA, pB] (some pB)
        (eff ++ [Effect.contentGridForget pD.content.id, Effect.tabGridForget pD.tab.id,
          Effect.rearrange [pA.tab.id, pB.tab.id, pC.tab.id],
          Effect.contentGridForget pC.content.id, Effect.tabGridForget pC.tab.id,
          Effect.rearrange [pA.tab.id, pB.tab.id]])) := by
    rw [close_tab_spliced _ [pA, pB] [] pC rfl
      (by intro q hq; simp at hq; rcases hq with h | h <;> subst h <;> assumption)
      (by intro q hq; simp at hq; rcases hq with h | h <;> subst h <;> assumption)]
    simp [rearrange_tabs]
  have hA2 : close_tab (Notebook.mk cl nid [pA, pB] (some pB)
      (eff ++ [Effect.contentGridForget pD.content.id, Effect.tabGridForget pD.tab.id,
        Effect.rearrange [pA.tab.id, pB.tab.id, pC.tab.id],
        Effect.contentGridForget pC.content.id, Effect.tabGridForget pC.tab.id,
        Effect.rearrange [pA.tab.id, pB.tab.id]])) pA.tab =
      .ok (Notebook.mk cl nid [pB] (some pB)
        (eff ++ [Effect.contentGridForget pD.content.id, Effect.tabGridForget pD.tab.id,
          Effect.rearrange [pA.tab.id, pB.tab.id, pC.tab.id],
          Effect.contentGridForget pC.content.id, Effect.tabGridForget pC.tab.id,
          Effect.rearrange [pA.tab.id, pB.tab.id],
          Effect.contentGridForget pA.content.id, Effect.tabGridForget pA.tab.id,
          Effect.rearrange [pB.tab.id]])) := by
    rw [close_tab_spliced _ [] [pB] pA rfl
      (by intro q hq; simp at hq) (by intro q hq; simp at hq)]
    simp [rearrange_tabs]
  have hB2 : close_tab (Notebook.mk cl nid [pA, pB] (some pB)
      (eff ++ [Effect.contentGridForget pD.content.id, Effect.tabGridForget pD.tab.id,
        Effect.rearrange [pA.tab.id, pB.tab.id, pC.tab.id],
        Effect.contentGridForget pC.content.id, Effect.tabGridForget pC.tab.id,
        Effect.rearrange [pA.tab.id, pB.tab.id]])) pB.tab =
      .ok (Notebook.mk cl nid [pA] (some pA)
        (eff ++ [Effect.contentGridForget pD.content.id, Effect.tabGridForget pD.tab.id,
          Effect.rearrange [pA.tab.id, pB.tab.id, pC.tab.id],
          Effect.contentGridForget pC.content.id, Effect.tabGridForget pC.tab.id,
          Effect.rearrange [pA.tab.id, pB.tab.id],
          Effect.contentGridForget pB.content.id, Effect.tabGridForget pB.tab.id,
          Effect.rearrange [pA.tab.id]])) := by
    rw [close_tab_spliced _ [pA] [] pB rfl
      (by intro q hq; simp at hq; subst hq; assumption)
      (by intro q hq; simp at hq; subst hq; assumption)]
    simp [rearrange_tabs]
  have hA3 : close_tab (Notebook.mk cl nid [pA] (some pA)
      (eff ++ [Effect.contentGridForget pD.content.id, Effect.tabGridForget pD.tab.id,
        Effect.rearrange [pA.tab.id, pB.tab.id, pC.tab.id],
        Effect.contentGridForget pC.content.id, Effect.tabGridForget pC.tab.id,
        Effect.rearrange [pA.tab.id, pB.tab.id],
        Effect.contentGridForget pB.content.id, Effect.tabGridForget pB.tab.id,
        Effect.rearrange [pA.tab.id]])) pA.tab =
      .ok (Notebook.mk cl nid [] none
        (eff ++ [Effect.contentGridForget pD.content.id, Effect.tabGridForget pD.tab.id,
          Effect.rearrange [pA.tab.id, pB.tab.id, pC.tab.id],
          Effect.contentGridForget pC.content.id, Effect.tabGridForget pC.tab.id,
          Effect.rearrange [pA.tab.id, pB.tab.id],
          Effect.contentGridForget pB.content.id, Effect.tabGridForget pB.tab.id,
          Effect.rearrange [pA.tab.id],
          Effect.contentGridForget pA.content.id, Effect.tabGridForget pA.tab.id,
          Effect.rearrange []])) := by
    rw [close_tab_spliced _ [] [] pA rfl
      (by intro q hq; simp at hq) (by intro q hq; simp at hq)]
    simp [rearrange_tabs]
  have hrunB : close_tabs (Notebook.mk cl nid [pA, pB, pC, pD] cur eff) (some pB.tab) =
      Notebook.mk cl nid [pB] (some pB)
        (eff ++ [Effect.contentGridForget pD.content.id, Effect.tabGridForget pD.tab.id,
          Effect.rearrange [pA.tab.id, pB.tab.id, pC.tab.id],
          Effect.contentGridForget pC.content.id, Effect.tabGridForget pC.tab.id,
          Effect.rearrange [pA.tab.id, pB.tab.id],
          Effect.contentGridForget pA.content.id, Effect.tabGridForget pA.tab.id,
          Effect.rearrange [pB.tab.id]]) := by
    show close_tabs_loop (some pB.tab) (Notebook.mk cl nid [pA, pB, pC, pD] cur eff) 4 = _
    rw [show (4 : Nat) = 3 + 1 from rfl,
      close_tabs_loop_step' (some pB.tab) (Notebook.mk cl nid [pA, pB, pC, pD] cur eff) 3 pD (by simp) rfl,
      if_neg (by simp [hBD.symm]), hD]
    dsimp only
    rw [show (3 : Nat) = 2 + 1 from rfl,
      close_tabs_loop_step' (some pB.tab) (Notebook.mk cl nid [pA, pB, pC] (some pC)
        (eff ++ [Effect.contentGridForget pD.content.id, Effect.tabGridForget pD.tab.id,
          Effect.rearrange [pA.tab.id, pB.tab.id, pC.tab.id]])) 2 pC (by simp) rfl,
      if_neg (by simp [hBC.symm]), hC]
    dsimp only
    rw [show (2 : Nat) = 1 + 1 from rfl,
      close_tabs_loop_step' (some pB.tab) (Notebook.mk cl nid [pA, pB] (some pB)
        (eff ++ [Effect.contentGridForget pD.content.id, Effect.tabGridForget pD.tab.id,
          Effect.rearrange [pA.tab.id, pB.tab.id, pC.tab.id],
          Effect.contentGridForget pC.content.id, Effect.tabGridForget pC.tab.id,
          Effect.rearrange [pA.tab.id, pB.tab.id]])) 1 pB (by simp) rfl,
      if_pos rfl]
    rw [show (1 : Nat) = 0 + 1 from rfl,
      close_tabs_loop_step' (some pB.tab) (Notebook.mk cl nid [pA, pB] (some pB)
        (eff ++ [Effect.contentGridForget pD.content.id, Effect.tabGridForget pD.tab.id,
          Effect.rearrange [pA.tab.id, pB.tab.id, pC.tab.id],
          Effect.contentGridForget pC.content.id, Effect.tabGridForget pC.tab.id,
          Effect.rearrange [pA.tab.id, pB.tab.id]])) 0 pA (by simp) rfl,
      if_neg (by simp [hAB]), hA2]
    dsimp only
    rfl
  have hrunAll : close_tabs (Notebook.mk cl nid [pA, pB, pC, pD] cur eff) none =
      Notebook.mk cl nid [] none
        (eff ++ [Effect.contentGridForget pD.content.id, Effect.tabGridForget pD.tab.id,
          Effect.rearrange [pA.tab.id, pB.tab.id, pC.tab.id],
          Effect.contentGridForget pC.content.id, Effect.tabGridForget pC.tab.id,
          Effect.rearrange [pA.tab.id, pB.tab.id],
          Effect.contentGridForget pB.content.id, Effect.tabGridForget pB.tab.id,
          Effect.rearrange [pA.tab.id],
          Effect.contentGridForget pA.content.id, Effect.tabGridForget pA.tab.id,
          Effect.rearrange []]) := by
    show close_tabs_loop none (Notebook.mk cl nid [pA, pB, pC, pD] cur eff) 4 = _
    rw [show (4 : Nat) = 3 + 1 from rfl,
      close_tabs_loop_step' none (Notebook.mk cl nid [pA, pB, pC, pD] cur eff) 3 pD (by simp) rfl,
      if_neg (by simp), hD]
    dsimp only
    rw [show (3 : Nat) = 2 + 1 from rfl,
      close_tabs_loop_step' none (Notebook.mk cl nid [pA, pB, pC] (some pC)
        (eff ++ [Effect.contentGridForget pD.content.id, Effect.tabGridForget pD.tab.id,
          Effect.rearrange [pA.tab.id, pB.tab.id, pC.tab.id]])) 2 pC (by simp) rfl,
      if_neg (by simp), hC]
    dsimp only
    rw [show (2 : Nat) = 1 + 1 from rfl,
      close_tabs_loop_step' none (Notebook.mk cl nid [pA, pB] (some pB)
        (eff ++ [Effect.contentGridForget pD.content.id, Effect.tabGridForget pD.tab.id,
          Effect.rearrange [pA.tab.id, pB.tab.id, pC.tab.id],
          Effect.contentGridForget pC.content.id, Effect.tabGridForget pC.tab.id,
          Effect.rearrange [pA.tab.id, pB.tab.id]])) 1 pB (by simp) rfl,
      if_neg (by simp), hB2]
    dsimp only
    rw [show (1 : Nat) = 0 + 1 from rfl,
      close_tabs_loop_step' none (Notebook.mk cl nid [pA] (some pA)
        (eff ++ [Effect.contentGridForget pD.content.id, Effect.tabGridForget pD.tab.id,
          Effect.rearrange [pA.tab.id, pB.tab.id, pC.tab.id],
          Effect.contentGridForget pC.content.id, Effect.tabGridForget pC.tab.id,
          Effect.rearrange [pA.tab.id, pB.tab.id],
          Effect.contentGridForget pB.content.id, Effect.tabGridForget pB.tab.id,
          Effect.rearrange [pA.tab.id]])) 0 pA (by simp) rfl,
      if_neg (by simp), hA3]
    dsimp only
    rfl
  refine ⟨?_, ?_, ?_, ?_⟩
  · rw [hrunB]
  · rw [hrunB]
  · rw [hrunAll]
  · rw [hrunAll]

/-- C7 witness: on the concrete four-page sample, "close others" from
`B` leaves `[B]` and "close all" leaves the empty sequence. -/
theorem C7_close_others_and_close_all_witness :
    (close_tabs nbABCD (some pageB.tab)).pages = [pageB] ∧
    (close_tabs nbABCD none).pages = [] := by
  have h := C7_close_others_and_close_all nbABCD pageA pageB pageC pageD rfl
    (by decide) (by decide) (by decide) (by decide) (by decide) (by decide)
    (by decide) (by decide) (by decide) (by decide) (by decide) (by decide)
  exact ⟨h.1, h.2.2.1⟩

end CustomNotebook
